import Mathlib

/-!
Roadrunner control protocol (`internal/protocol.go`).

A shallow embedding of `SendControl`, `Pid`, `getFrame` and `putFrame`, together
with the pieces of their collaborators they touch: the goridge frame header, the
relay interface, the JSON encoding of the two command structs and the frame pool.

Bytes are natural numbers below 256; every write into a header truncates with
`% 256`, `uint32` conversions are written `% 4294967296`.
-/

namespace Roadrunner

/-! ## Frame codec (goridge `pkg/frame`) -/

namespace frame

/-- Protocol version written by `SendControl` (`frame.VERSION_1`). -/
def VERSION_1 : Nat := 1

/-- Flag bit marking a control frame (`frame.CONTROL`). -/
def CONTROL : Nat := 0x01

/-- Modelled from the spec: the goridge frame type is not under src/. A frame is a
header (version nibble and header length in byte 0, flags in byte 1, payload length
little-endian in bytes 2..5, CRC little-endian in bytes 6..9, two reserved bytes,
then options) followed by a payload. Every constructor of the codec allocates at
least the 12 fixed header bytes, which `wf` records, so header reads never go out
of bounds. -/
structure Frame where
  header : List Nat
  payload : List Nat
  wf : 12 ≤ header.length
  deriving DecidableEq

/-- Read header byte `i`. -/
def Frame.byte (f : Frame) (i : Nat) : Nat := f.header.getD i 0 % 256

/-- Store `v`, truncated to a byte, at header index `i`. -/
def Frame.setByte (f : Frame) (i v : Nat) : Frame :=
  ⟨f.header.set i (v % 256), f.payload, by rw [List.length_set]; exact f.wf⟩

/-- Modelled from the spec: `frame.NewFrame` (goridge, not under src/): a zeroed
12-byte header whose header-length nibble is 3 words, and an empty payload. -/
def NewFrame : Frame := ⟨[3, 0, 0, 0, 0, 0, 0, 0, 0, 0, 0, 0], [], by decide⟩

/-- Modelled from the spec: `Frame.Reset` (goridge, not under src/) reallocates
header and payload exactly as `NewFrame` does. -/
def Frame.Reset (_f : Frame) : Frame := NewFrame

/-- Modelled from the spec: `Frame.WriteVersion` ors the version into the upper
nibble of byte 0. -/
def Frame.WriteVersion (f : Frame) (version : Nat) : Frame :=
  f.setByte 0 ((version % 256) <<< 4 % 256 ||| f.byte 0)

/-- Modelled from the spec: `Frame.Version` reads the upper nibble of byte 0. -/
def Frame.Version (f : Frame) : Nat := f.byte 0 >>> 4

/-- Modelled from the spec: `Frame.WriteFlags` ors the flag into byte 1. -/
def Frame.WriteFlags (f : Frame) (flag : Nat) : Frame :=
  f.setByte 1 (f.byte 1 ||| flag % 256)

/-- Modelled from the spec: `Frame.ReadFlags` returns byte 1. -/
def Frame.ReadFlags (f : Frame) : Nat := f.byte 1

/-- Modelled from the spec: `Frame.WritePayloadLen` stores a `uint32`
little-endian in bytes 2..5. -/
def Frame.WritePayloadLen (f : Frame) (payloadLen : Nat) : Frame :=
  (((f.setByte 2 payloadLen).setByte 3 (payloadLen >>> 8)).setByte 4
    (payloadLen >>> 16)).setByte 5 (payloadLen >>> 24)

/-- Modelled from the spec: `Frame.ReadPayloadLen` reads bytes 2..5
little-endian. -/
def Frame.ReadPayloadLen (f : Frame) : Nat :=
  f.byte 2 ||| f.byte 3 <<< 8 ||| f.byte 4 <<< 16 ||| f.byte 5 <<< 24

/-- Modelled from the spec: `Frame.WritePayload` replaces the payload by a copy
of `data`. -/
def Frame.WritePayload (f : Frame) (data : List Nat) : Frame :=
  ⟨f.header, data, f.wf⟩

/-- Modelled from the spec: `Frame.Payload` returns the payload bytes. -/
def Frame.Payload (f : Frame) : List Nat := f.payload

/-- One bit step of the reflected CRC-32 (polynomial `0xEDB88320`). -/
def crcBit (crc : Nat) : Nat :=
  if crc % 2 = 1 then (crc >>> 1) ^^^ 0xEDB88320 else crc >>> 1

/-- Fold one input byte into the running CRC. -/
def crcByte (crc b : Nat) : Nat :=
  crcBit (crcBit (crcBit (crcBit (crcBit (crcBit (crcBit (crcBit (crc ^^^ b % 256))))))))

/-- Modelled from the spec: `crc32.ChecksumIEEE` (Go standard library), the
checksum the frame codec takes over the first six header bytes. -/
def ChecksumIEEE (data : List Nat) : Nat :=
  data.foldl crcByte 0xFFFFFFFF ^^^ 0xFFFFFFFF

/-- Modelled from the spec: `Frame.WriteCRC` stores the checksum of header bytes
0..5 little-endian in bytes 6..9. -/
def Frame.WriteCRC (f : Frame) : Frame :=
  let crc := ChecksumIEEE ((f.header.take 6).map (· % 256))
  (((f.setByte 6 crc).setByte 7 (crc >>> 8)).setByte 8 (crc >>> 16)).setByte 9 (crc >>> 24)

/-- Modelled from the spec: `Frame.VerifyCRC` recomputes the checksum of header
bytes 0..5 and compares it with the stored one. -/
def Frame.VerifyCRC (f : Frame) : Bool :=
  ChecksumIEEE ((f.header.take 6).map (· % 256)) ==
    (f.byte 6 ||| f.byte 7 <<< 8 ||| f.byte 8 <<< 16 ||| f.byte 9 <<< 24)

end frame

open frame

/-! ## Errors (`github.com/spiral/errors`) -/

/-- Go `error` values: `errors.Str msg` and `errors.E(op, err)`. Errors coming
out of a relay or out of the JSON decoder are values of the same type. -/
inductive Error where
  | Str (msg : String)
  | E (op : String) (err : Error)
  deriving DecidableEq

deriving instance DecidableEq for Except

/-! ## Payloads and their JSON encoding -/

/-- Command asking a worker to stop. -/
structure StopCommand where
  Stop : Bool
  deriving DecidableEq

/-- Handshake command carrying a process id. -/
structure pidCommand where
  Pid : Int
  deriving DecidableEq

/-- The `interface{}` argument of `SendControl`: a byte slice, one of the two
command structs of this package, or any other Go value, kept as the outcome
`json.Marshal` has on it. -/
inductive Payload where
  | bytes (data : List Nat)
  | stop (c : StopCommand)
  | pid (c : pidCommand)
  | other (encoded : Except String (List Nat))

/-- Decimal digits of a natural number, as ASCII bytes. -/
def natDecimal (n : Nat) : List Nat := (Nat.toDigits 10 n).map Char.toNat

/-- Decimal rendering of a Go `int`, as ASCII bytes. -/
def intDecimal (n : Int) : List Nat :=
  if n < 0 then 45 :: natDecimal n.natAbs else natDecimal n.toNat

/-- Index into the standard base64 alphabet. -/
def b64Char (n : Nat) : Nat :=
  if n < 26 then 65 + n
  else if n < 52 then 97 + (n - 26)
  else if n < 62 then 48 + (n - 52)
  else if n = 62 then 43 else 47

/-- Standard padded base64, the form `json.Marshal` gives a byte slice. -/
def base64 : List Nat → List Nat
  | [] => []
  | [a] => [b64Char (a >>> 2), b64Char ((a % 4) <<< 4), 61, 61]
  | [a, b] =>
    [b64Char (a >>> 2), b64Char ((a % 4) <<< 4 ||| b >>> 4), b64Char ((b % 16) <<< 2), 61]
  | a :: b :: c :: rest =>
    b64Char (a >>> 2) :: b64Char ((a % 4) <<< 4 ||| b >>> 4) ::
      b64Char ((b % 16) <<< 2 ||| c >>> 6) :: b64Char (c % 64) :: base64 rest

/-- Modelled from the spec: `json.Marshal` (json-iterator, not under src/) on the
values `SendControl` can be given. The structs encode by their `json` tags,
`StopCommand` as `{"stop":true}` or `{"stop":false}` and `pidCommand` as
`{"pid":N}`; a non-nil byte slice encodes as a base64 string; any other value
carries its own outcome. -/
def Marshal : Payload → Except String (List Nat)
  | .bytes data => .ok ([34] ++ base64 data ++ [34])
  | .stop c =>
    -- {"stop":  then  true | false  then  }
    .ok ([123, 34, 115, 116, 111, 112, 34, 58] ++
      (if c.Stop then [116, 114, 117, 101] else [102, 97, 108, 115, 101]) ++ [125])
  | .pid c =>
    -- {"pid":  then the decimal number  then  }
    .ok ([123, 34, 112, 105, 100, 34, 58] ++ intDecimal c.Pid ++ [125])
  | .other encoded => encoded

/-! ## Relay and process state -/

/-- The `relay.Relay` interface: `Send` transmits a frame, `Receive` fills the
frame it is handed; both may fail. `σ` is the state of the connection. -/
structure Relay (σ : Type) where
  Send : σ → Frame → σ × Option Error
  Receive : σ → Frame → σ × Frame × Option Error

/-- A call made on the relay. -/
inductive Event where
  | send (fr : Frame)
  | receive
  deriving DecidableEq

/-- State threaded through the package: the relay connection, the frames held
by `fPool`, and the log of the calls made on the relay so far. -/
structure World (σ : Type) where
  conn : σ
  fPool : List Frame
  log : List Event

variable {σ : Type}

/-- A process that has not used the package yet: empty pool, empty log. -/
def World.init (conn : σ) : World σ := ⟨conn, [], []⟩

/-- Perform `rl.Send(fr)` and log it. -/
def World.Send (w : World σ) (rl : Relay σ) (fr : Frame) : World σ × Option Error :=
  let r := rl.Send w.conn fr
  (⟨r.1, w.fPool, w.log ++ [Event.send fr]⟩, r.2)

/-- Perform `rl.Receive(fr)` and log it. -/
def World.Receive (w : World σ) (rl : Relay σ) (fr : Frame) :
    World σ × Frame × Option Error :=
  let r := rl.Receive w.conn fr
  (⟨r.1, w.fPool, w.log ++ [Event.receive]⟩, r.2.1, r.2.2)

/-- Take a frame from `fPool` (`fPool.Get`), allocating with `NewFrame` when the
pool is empty. -/
def getFrame (w : World σ) : Frame × World σ :=
  match w.fPool with
  | [] => (NewFrame, w)
  | f :: rest => (f, ⟨w.conn, rest, w.log⟩)

/-- Reset the frame and hand it back to `fPool`. -/
def putFrame (w : World σ) (f : Frame) : World σ :=
  ⟨w.conn, f.Reset :: w.fPool, w.log⟩

/-! ## `SendControl` and `Pid` -/

/-- Send `payload` in a control frame. The deferred `putFrame` runs on every
return path. -/
def SendControl (rl : Relay σ) (w : World σ) (payload : Payload) :
    World σ × Option Error :=
  let op := "send_control"
  let g := getFrame w
  let fr := g.1.WriteVersion VERSION_1
  let fr := fr.WriteFlags CONTROL
  match payload with
  | .bytes data =>
    if data.length % 4294967296 > 4294967295 then
      (putFrame g.2 fr, some (.E op (.Str "payload is more that 4gb")))
    else
      let fr := fr.WritePayloadLen (data.length % 4294967296)
      let fr := fr.WritePayload data
      let fr := fr.WriteCRC
      let s := g.2.Send rl fr
      match s.2 with
      | some err => (putFrame s.1 fr, some (.E op err))
      | none => (putFrame s.1 fr, none)
  | payload =>
    match Marshal payload with
    | .error err => (putFrame g.2 fr, some (.E op (.Str ("invalid payload: " ++ err))))
    | .ok data =>
      let fr := fr.WritePayloadLen (data.length % 4294967296)
      let fr := fr.WritePayload data
      let fr := fr.WriteCRC
      let s := g.2.Send rl fr
      match s.2 with
      | some err => (putFrame s.1 fr, some (.E op err))
      | none => (putFrame s.1 fr, none)

/-- The PID handshake. `Getpid` is the host process id (`os.Getpid()`),
`Unmarshal` is `json.Unmarshal` into a `*pidCommand`: it is handed the payload
and the zero-valued struct and gives back the filled struct or an error. The
source's `fr == nil` test is left out: `fr` is the pointer `getFrame` returned,
which `Receive` cannot change, so the test never succeeds. -/
def Pid (rl : Relay σ) (Unmarshal : List Nat → pidCommand → Except Error pidCommand)
    (Getpid : Int) (w : World σ) : World σ × Int × Option Error :=
  let op := "fetch_pid"
  let s := SendControl rl w (.pid ⟨Getpid⟩)
  match s.2 with
  | some err => (s.1, 0, some (.E op err))
  | none =>
    let g := getFrame s.1
    let r := g.2.Receive rl g.1
    let fr := r.2.1
    if !fr.VerifyCRC then
      (putFrame r.1 fr, 0, some (.E op (.Str "CRC mismatch")))
    else
      match r.2.2 with
      | some err => (putFrame r.1 fr, 0, some (.E op err))
      | none =>
        let flags := fr.ReadFlags
        if flags &&& CONTROL = 0 then
          (putFrame r.1 fr, 0,
            some (.E op (.Str "unexpected response, header is missing, no CONTROL flag")))
        else
          match Unmarshal fr.Payload ⟨0⟩ with
          | .error err => (putFrame r.1 fr, 0, some (.E op err))
          | .ok link =>
            if link.Pid ≤ 0 then
              (putFrame r.1 fr, 0, some (.E op (.Str "pid should be greater than 0")))
            else
              (putFrame r.1 fr, link.Pid, none)


/-! ## Derived notions used to state the properties -/

/-- The bytes `SendControl` puts into the frame: a byte slice goes in verbatim,
anything else goes through `json.Marshal`. -/
def encode : Payload → Except String (List Nat)
  | .bytes data => .ok data
  | .stop c => Marshal (.stop c)
  | .pid c => Marshal (.pid c)
  | .other encoded => Marshal (.other encoded)

/-- The writes `SendControl` performs on the frame `f0` it took from the pool,
for payload bytes `data`. -/
def controlFrameFrom (f0 : Frame) (data : List Nat) : Frame :=
  ((((f0.WriteVersion VERSION_1).WriteFlags CONTROL).WritePayloadLen
    (data.length % 4294967296)).WritePayload data).WriteCRC

/-- Little-endian bytes of a 32-bit value. -/
def le32 (x : Nat) : List Nat := [x % 256, x >>> 8 % 256, x >>> 16 % 256, x >>> 24 % 256]

/-- The control frame built on a freshly constructed frame. -/
def controlFrame (data : List Nat) : Frame := controlFrameFrom NewFrame data

/-- Every frame held by the pool is in the freshly constructed state. -/
def PoolFresh (w : World σ) : Prop := ∀ f ∈ w.fPool, f = NewFrame

/-- Frame and error that `rl.Receive` yields inside `Pid`, that is on the frame
taken from the pool after the handshake request went out. -/
def handshakeReply (rl : Relay σ) (Getpid : Int) (w : World σ) : Frame × Option Error :=
  let s := SendControl rl w (.pid ⟨Getpid⟩)
  let g := getFrame s.1
  (g.2.Receive rl g.1).2

/-- A call into the package. -/
inductive Call where
  | SendControl (payload : Payload)
  | Pid

/-- Perform one call, keeping only the state. -/
def step (rl : Relay σ) (Unmarshal : List Nat → pidCommand → Except Error pidCommand)
    (Getpid : Int) (w : World σ) : Call → World σ
  | .SendControl payload => (SendControl rl w payload).1
  | .Pid => (Pid rl Unmarshal Getpid w).1

/-- Perform a sequence of calls. -/
def run (rl : Relay σ) (Unmarshal : List Nat → pidCommand → Except Error pidCommand)
    (Getpid : Int) (w : World σ) (calls : List Call) : World σ :=
  calls.foldl (step rl Unmarshal Getpid) w

/-! ## Sample collaborators -/

/-- A relay whose `Send` answers `sendErr` and whose `Receive` installs `reply`
and answers `recvErr`. -/
def scriptedRelay (sendErr : Option Error) (reply : Frame) (recvErr : Option Error) :
    Relay Unit :=
  ⟨fun s _ => (s, sendErr), fun s _ => (s, reply, recvErr)⟩

/-- Drop leading JSON whitespace. -/
def skipSpace : List Nat → List Nat
  | [] => []
  | c :: cs => if c = 32 ∨ c = 9 ∨ c = 10 ∨ c = 13 then skipSpace cs else c :: cs

/-- Read a run of decimal digits, accumulating their value. -/
def readDigits : List Nat → Nat → Nat → Nat × Nat × List Nat
  | [], acc, n => (acc, n, [])
  | c :: cs, acc, n =>
    if 48 ≤ c ∧ c ≤ 57 then readDigits cs (10 * acc + (c - 48)) (n + 1) else (acc, n, c :: cs)

/-- Read an optionally signed decimal integer with at least one digit. -/
def readInt (cs : List Nat) : Option (Int × List Nat) :=
  match cs with
  | 45 :: rest =>
    let r := readDigits rest 0 0
    if r.2.1 = 0 then none else some (-(r.1 : Int), r.2.2)
  | cs =>
    let r := readDigits cs 0 0
    if r.2.1 = 0 then none else some ((r.1 : Int), r.2.2)

/-- A small decoder to put in the place of `json.Unmarshal` at concrete replies.
It reads the two shapes of handshake reply, `{}` and `{"pid": N}` with optional
whitespace, and rejects everything else. A field that is absent leaves the struct
as it was handed in. -/
def decodePid (data : List Nat) (link : pidCommand) : Except Error pidCommand :=
  match skipSpace data with
  | 123 :: rest =>
    match skipSpace rest with
    | 125 :: tail => if skipSpace tail = [] then .ok link else .error (.Str "trailing bytes")
    | 34 :: 112 :: 105 :: 100 :: 34 :: rest =>
      match skipSpace rest with
      | 58 :: rest =>
        match readInt (skipSpace rest) with
        | none => .error (.Str "expected an integer")
        | some (n, rest) =>
          match skipSpace rest with
          | 125 :: tail =>
            if skipSpace tail = [] then .ok ⟨n⟩ else .error (.Str "trailing bytes")
          | _ => .error (.Str "expected the end of the object")
      | _ => .error (.Str "expected a colon")
    | _ => .error (.Str "unexpected field")
  | _ => .error (.Str "expected an object")

/-! ## Lemmas on the frame codec -/

theorem crcBit_lt {c : Nat} (h : c < 2 ^ 32) : crcBit c < 2 ^ 32 := by
  unfold crcBit
  have h1 : c >>> 1 < 2 ^ 32 := by
    rw [Nat.shiftRight_eq_div_pow]; omega
  split
  · exact Nat.xor_lt_two_pow h1 (by norm_num)
  · exact h1

theorem crcByte_lt {c : Nat} (b : Nat) (h : c < 2 ^ 32) : crcByte c b < 2 ^ 32 := by
  unfold crcByte
  have h0 : c ^^^ b % 256 < 2 ^ 32 :=
    Nat.xor_lt_two_pow h (lt_of_lt_of_le (Nat.mod_lt _ (by norm_num)) (by norm_num))
  exact crcBit_lt (crcBit_lt (crcBit_lt (crcBit_lt (crcBit_lt (crcBit_lt (crcBit_lt
    (crcBit_lt h0)))))))

theorem foldl_crcByte_lt (data : List Nat) {c : Nat} (h : c < 2 ^ 32) :
    data.foldl crcByte c < 2 ^ 32 := by
  induction data generalizing c with
  | nil => simpa using h
  | cons b bs ih => exact ih (crcByte_lt b h)

theorem ChecksumIEEE_lt (data : List Nat) : ChecksumIEEE data < 2 ^ 32 := by
  unfold ChecksumIEEE
  exact Nat.xor_lt_two_pow (foldl_crcByte_lt data (by norm_num)) (by norm_num)

/-- Four little-endian bytes of a 32-bit value put back together. -/
theorem le32_roundtrip {x : Nat} (h : x < 2 ^ 32) :
    (x % 256 ||| (x >>> 8 % 256) <<< 8 ||| (x >>> 16 % 256) <<< 16 |||
      (x >>> 24 % 256) <<< 24) = x := by
  simp only [Nat.shiftRight_eq_div_pow, Nat.shiftLeft_eq]
  have e1 : x % 256 ||| x / 2 ^ 8 % 256 * 2 ^ 8 = x % 65536 := by
    rw [Nat.lor_comm, Nat.mul_comm, ← Nat.mul_add_lt_is_or (by omega)]; omega
  have e2 : x % 65536 ||| x / 2 ^ 16 % 256 * 2 ^ 16 = x % 16777216 := by
    rw [Nat.lor_comm, Nat.mul_comm, ← Nat.mul_add_lt_is_or (by omega)]; omega
  have e3 : x % 16777216 ||| x / 2 ^ 24 % 256 * 2 ^ 24 = x := by
    rw [Nat.lor_comm, Nat.mul_comm, ← Nat.mul_add_lt_is_or (by omega)]; omega
  rw [e1, e2, e3]


theorem setByte_header (f : Frame) (i v : Nat) :
    (f.setByte i v).header = f.header.set i (v % 256) := rfl

theorem setByte_payload (f : Frame) (i v : Nat) : (f.setByte i v).payload = f.payload := rfl

theorem controlFrameFrom_payload (f0 : Frame) (data : List Nat) :
    (controlFrameFrom f0 data).Payload = data := rfl

/-- Header of the control frame for `data`: version and header length, flags,
payload length, checksum of those six bytes, two reserved bytes. -/
theorem controlFrame_header (data : List Nat) :
    (controlFrame data).header =
      [19, 1] ++ le32 (data.length % 4294967296) ++
        le32 (ChecksumIEEE ([19, 1] ++ le32 (data.length % 4294967296))) ++ [0, 0] := by
  generalize hn : data.length % 4294967296 = n
  simp only [controlFrame, controlFrameFrom, Frame.WriteCRC, Frame.WritePayload,
    Frame.WritePayloadLen, Frame.WriteFlags, Frame.WriteVersion, setByte_header, Frame.byte,
    NewFrame, VERSION_1, CONTROL, hn]
  generalize hc : ChecksumIEEE _ = c
  have hc2 : ChecksumIEEE ([19, 1] ++ le32 n) = c := by
    rw [← hc]
    simp [le32, Frame.setByte]
  rw [hc2]
  simp [le32]

theorem controlFrame_Version (data : List Nat) : (controlFrame data).Version = 1 := by
  rw [Frame.Version, Frame.byte, controlFrame_header]
  simp

theorem controlFrame_ReadFlags (data : List Nat) : (controlFrame data).ReadFlags = 1 := by
  rw [Frame.ReadFlags, Frame.byte, controlFrame_header]
  simp

theorem controlFrame_ReadPayloadLen (data : List Nat) :
    (controlFrame data).ReadPayloadLen = data.length % 4294967296 := by
  have h : data.length % 4294967296 < 2 ^ 32 := Nat.mod_lt _ (by norm_num)
  simp only [Frame.ReadPayloadLen, Frame.byte, controlFrame_header]
  generalize ChecksumIEEE _ = c
  generalize data.length % 4294967296 = n at h
  simpa [le32] using le32_roundtrip h

theorem controlFrame_VerifyCRC (data : List Nat) : (controlFrame data).VerifyCRC = true := by
  have h := le32_roundtrip (ChecksumIEEE_lt ([19, 1] ++ le32 (data.length % 4294967296)))
  simp only [Frame.VerifyCRC, Frame.byte, controlFrame_header]
  generalize data.length % 4294967296 = n at h
  have ht : (List.take 6 ([19, 1] ++ le32 n ++ le32 (ChecksumIEEE ([19, 1] ++ le32 n)) ++
      [0, 0])).map (· % 256) = [19, 1] ++ le32 n := by
    simp [le32]
  rw [ht]
  generalize ChecksumIEEE _ = c at h
  simpa [le32] using h.symm


/-- The flag byte of a control frame has the CONTROL bit, whatever frame the
writes started from. -/
theorem controlFrameFrom_CONTROL (f0 : Frame) (data : List Nat) :
    (controlFrameFrom f0 data).ReadFlags &&& CONTROL = CONTROL := by
  have hw := f0.wf
  have h1 : (controlFrameFrom f0 data).ReadFlags = (f0.byte 1 ||| 1) % 256 := by
    simp only [controlFrameFrom, Frame.WriteCRC, Frame.WritePayload, Frame.WritePayloadLen,
      Frame.WriteFlags, Frame.WriteVersion, Frame.ReadFlags, Frame.byte, setByte_header,
      VERSION_1, CONTROL]
    generalize ChecksumIEEE _ = c
    have hlt : 1 < f0.header.length := by omega
    simp [List.getD_eq_getElem?_getD, List.getElem?_set, hlt]
  rw [h1, CONTROL, Nat.and_one_is_mod]
  have h2 : (f0.byte 1 ||| 1) % 2 = 1 := Nat.or_mod_two_eq_one.mpr (Or.inr rfl)
  omega

/-! ## Lemmas on the pool and on `SendControl` -/

theorem putFrame_eq (w : World σ) (f : Frame) :
    putFrame w f = ⟨w.conn, NewFrame :: w.fPool, w.log⟩ := rfl

theorem getFrame_conn (w : World σ) : (getFrame w).2.conn = w.conn := by
  unfold getFrame; split <;> simp_all

theorem getFrame_log (w : World σ) : (getFrame w).2.log = w.log := by
  unfold getFrame; split <;> simp_all

theorem getFrame_fresh {w : World σ} (h : PoolFresh w) : (getFrame w).1 = NewFrame := by
  unfold getFrame
  split
  · rfl
  · rename_i f rest hp
    exact h f (by simp [hp])

theorem getFrame_PoolFresh {w : World σ} (h : PoolFresh w) : PoolFresh (getFrame w).2 := by
  unfold getFrame
  split
  · exact h
  · rename_i f rest hp
    intro g hg
    exact h g (by simp only [hp]; exact List.mem_cons_of_mem _ hg)

theorem putFrame_PoolFresh {w : World σ} (h : PoolFresh w) (f : Frame) :
    PoolFresh (putFrame w f) := by
  intro g hg
  rw [putFrame_eq] at hg
  rcases List.mem_cons.mp hg with hg | hg
  · exact hg
  · exact h g hg

theorem init_PoolFresh (conn : σ) : PoolFresh (World.init conn) := by
  intro f hf
  simp [World.init] at hf

/-- Behaviour of `SendControl` when the payload has bytes to send: one frame is built on the
pooled frame and handed to `Send`, whose error (if any) is wrapped. -/
theorem SendControl_of_encode_ok (rl : Relay σ) (w : World σ) {payload : Payload}
    {data : List Nat} (h : encode payload = .ok data) :
    SendControl rl w payload =
      (putFrame ((getFrame w).2.Send rl (controlFrameFrom (getFrame w).1 data)).1
          (controlFrameFrom (getFrame w).1 data),
        ((getFrame w).2.Send rl (controlFrameFrom (getFrame w).1 data)).2.map
          (Error.E "send_control")) := by
  have hdead : ∀ n : Nat, ¬ (n % 4294967296 > 4294967295) := by intro n; omega
  cases payload with
  | bytes d =>
    simp only [encode, Except.ok.injEq] at h
    subst h
    simp only [SendControl, hdead, if_false, controlFrameFrom]
    split <;> simp_all
  | stop c =>
    simp only [encode] at h
    simp only [SendControl, h, controlFrameFrom]
    split <;> simp_all
  | pid c =>
    simp only [encode] at h
    simp only [SendControl, h, controlFrameFrom]
    split <;> simp_all
  | other enc =>
    simp only [encode] at h
    simp only [SendControl, h, controlFrameFrom]
    split <;> simp_all

/-- Behaviour of `SendControl` when `json.Marshal` rejects the payload: nothing is sent. -/
theorem SendControl_of_encode_error (rl : Relay σ) (w : World σ) {payload : Payload}
    {msg : String} (h : encode payload = .error msg) :
    SendControl rl w payload =
      (putFrame (getFrame w).2 NewFrame,
        some (.E "send_control" (.Str ("invalid payload: " ++ msg)))) := by
  cases payload with
  | bytes d => simp [encode] at h
  | stop c => simp [encode, Marshal] at h
  | pid c => simp [encode, Marshal] at h
  | other enc =>
    simp only [encode] at h
    simp only [SendControl, h, putFrame_eq]

theorem SendControl_log_ok (rl : Relay σ) (w : World σ) {payload : Payload}
    {data : List Nat} (h : encode payload = .ok data) :
    (SendControl rl w payload).1.log =
      w.log ++ [Event.send (controlFrameFrom (getFrame w).1 data)] := by
  rw [SendControl_of_encode_ok rl w h]
  simp [putFrame_eq, World.Send, getFrame_log]

theorem SendControl_err_ok (rl : Relay σ) (w : World σ) {payload : Payload}
    {data : List Nat} (h : encode payload = .ok data) :
    (SendControl rl w payload).2 =
      (rl.Send w.conn (controlFrameFrom (getFrame w).1 data)).2.map (Error.E "send_control") := by
  rw [SendControl_of_encode_ok rl w h]
  simp [World.Send, getFrame_conn]

theorem SendControl_PoolFresh (rl : Relay σ) {w : World σ} (payload : Payload)
    (h : PoolFresh w) : PoolFresh (SendControl rl w payload).1 := by
  have hg := getFrame_PoolFresh h
  cases he : encode payload with
  | error msg =>
    rw [SendControl_of_encode_error rl w he]
    exact putFrame_PoolFresh hg _
  | ok data =>
    rw [SendControl_of_encode_ok rl w he]
    exact putFrame_PoolFresh (w := ((getFrame w).2.Send rl _).1) hg _


/-! ## Lemmas on `Pid` and on sequences of calls -/

theorem Pid_of_send_error (rl : Relay σ)
    (Unmarshal : List Nat → pidCommand → Except Error pidCommand) (Getpid : Int)
    (w : World σ) {e : Error} (h : (SendControl rl w (.pid ⟨Getpid⟩)).2 = some e) :
    Pid rl Unmarshal Getpid w =
      ((SendControl rl w (.pid ⟨Getpid⟩)).1, 0, some (.E "fetch_pid" e)) := by
  simp only [Pid, h]

theorem Pid_log_of_send_ok (rl : Relay σ)
    (Unmarshal : List Nat → pidCommand → Except Error pidCommand) (Getpid : Int)
    (w : World σ) (h : (SendControl rl w (.pid ⟨Getpid⟩)).2 = none) :
    (Pid rl Unmarshal Getpid w).1.log =
      (SendControl rl w (.pid ⟨Getpid⟩)).1.log ++ [Event.receive] := by
  simp only [Pid, h]
  repeat' split
  all_goals simp [putFrame_eq, World.Receive, getFrame_log]

theorem Pid_PoolFresh (rl : Relay σ)
    (Unmarshal : List Nat → pidCommand → Except Error pidCommand) (Getpid : Int)
    {w : World σ} (h : PoolFresh w) : PoolFresh (Pid rl Unmarshal Getpid w).1 := by
  have hs := SendControl_PoolFresh rl (.pid ⟨Getpid⟩) h
  have hg := getFrame_PoolFresh hs
  simp only [Pid]
  repeat' split
  all_goals first
    | exact hs
    | exact putFrame_PoolFresh
        (w := ((getFrame (SendControl rl w (.pid ⟨Getpid⟩)).1).2.Receive rl _).1) hg _

theorem run_PoolFresh (rl : Relay σ)
    (Unmarshal : List Nat → pidCommand → Except Error pidCommand) (Getpid : Int)
    (calls : List Call) {w : World σ} (h : PoolFresh w) :
    PoolFresh (run rl Unmarshal Getpid w calls) := by
  induction calls generalizing w with
  | nil => exact h
  | cons c cs ih =>
    apply ih (w := step rl Unmarshal Getpid w c)
    cases c with
    | SendControl payload => exact SendControl_PoolFresh rl payload h
    | Pid => exact Pid_PoolFresh rl Unmarshal Getpid h

theorem encode_pid (n : Int) :
    encode (.pid ⟨n⟩) = .ok ([123, 34, 112, 105, 100, 34, 58] ++ intDecimal n ++ [125]) := rfl


theorem encode_eq_Marshal {payload : Payload} (h : ∀ d, payload ≠ .bytes d) :
    encode payload = Marshal payload := by
  cases payload with
  | bytes d => exact absurd rfl (h d)
  | stop c => rfl
  | pid c => rfl
  | other enc => rfl

theorem encode_error_iff {payload : Payload} {msg : String} :
    encode payload = .error msg ↔ Marshal payload = .error msg := by
  cases payload with
  | bytes d => simp [encode, Marshal]
  | stop c => rfl
  | pid c => rfl
  | other enc => rfl

theorem SendControl_log_error (rl : Relay σ) (w : World σ) {payload : Payload}
    {msg : String} (h : encode payload = .error msg) :
    (SendControl rl w payload).1.log = w.log := by
  rw [SendControl_of_encode_error rl w h]
  simp [putFrame_eq, getFrame_log]

/-! ## `SendControl` -/

/-- C4: in every state reached by calls into the package, for every payload whose
encoded bytes number at most 2^32-1, the one frame `SendControl` hands to the
relay has version 1, the CONTROL flag, a payload-length field equal to the number
of payload bytes, exactly those bytes as payload, and a CRC that verifies. -/
theorem SendControl_frame_is_wellformed (rl : Relay σ)
    (Unmarshal : List Nat → pidCommand → Except Error pidCommand) (Getpid : Int)
    (conn : σ) (calls : List Call) (payload : Payload) (data : List Nat)
    (henc : encode payload = .ok data) (hlen : data.length ≤ 4294967295) :
    ∃ fr : Frame,
      (SendControl rl (run rl Unmarshal Getpid (World.init conn) calls) payload).1.log =
        (run rl Unmarshal Getpid (World.init conn) calls).log ++ [Event.send fr] ∧
      fr.Version = VERSION_1 ∧ fr.ReadFlags &&& CONTROL = CONTROL ∧
      fr.ReadPayloadLen = data.length ∧ fr.Payload = data ∧ fr.VerifyCRC = true := by
  have hfresh := getFrame_fresh (run_PoolFresh rl Unmarshal Getpid calls (init_PoolFresh conn))
  refine ⟨controlFrame data, ?_, controlFrame_Version data, controlFrameFrom_CONTROL _ _, ?_,
    controlFrameFrom_payload _ _, controlFrame_VerifyCRC data⟩
  · rw [SendControl_log_ok rl _ henc, hfresh]; rfl
  · rw [controlFrame_ReadPayloadLen]; omega

/-- C5 (behaviour of the code): a byte slice of 2^32 bytes is not rejected. The
length check compares a value already truncated to 32 bits, so `SendControl`
builds the frame, with a payload-length field of 0, hands it to the relay and
returns whatever `Send` returned. -/
theorem SendControl_oversized_bytes_are_sent (rl : Relay σ) (conn : σ) :
    (SendControl rl (World.init conn) (.bytes (List.replicate 4294967296 0))).1.log =
        [Event.send (controlFrame (List.replicate 4294967296 0))] ∧
      (controlFrame (List.replicate 4294967296 0)).ReadPayloadLen = 0 ∧
      (SendControl rl (World.init conn) (.bytes (List.replicate 4294967296 0))).2 =
        (rl.Send conn (controlFrame (List.replicate 4294967296 0))).2.map
          (Error.E "send_control") := by
  have henc : encode (.bytes (List.replicate 4294967296 0)) =
      .ok (List.replicate 4294967296 0) := rfl
  refine ⟨?_, ?_, ?_⟩
  · rw [SendControl_log_ok rl _ henc]; rfl
  · rw [controlFrame_ReadPayloadLen, List.length_replicate]
  · rw [SendControl_err_ok rl _ henc]; rfl

/-- C6 (as stated, refuted): the byte slice `hi` is sent verbatim, while its JSON
encoding is the base64 string `"aGk="`. -/
theorem SendControl_bytes_not_JSON_encoded :
    Marshal (.bytes [104, 105]) = .ok [34, 97, 71, 107, 61, 34] ∧
      (SendControl (scriptedRelay none NewFrame none) (World.init ())
        (.bytes [104, 105])).1.log = [Event.send (controlFrame [104, 105])] ∧
      (controlFrame [104, 105]).Payload = [104, 105] ∧
      (controlFrame [104, 105]).Payload ≠ [34, 97, 71, 107, 61, 34] := by
  refine ⟨by decide, ?_, rfl, by decide⟩
  rw [SendControl_log_ok _ _ (rfl : encode (.bytes [104, 105]) = .ok [104, 105])]
  rfl

/-- C6 (amended): the frame `SendControl` sends carries the JSON encoding of the
payload whenever the payload is not a byte slice and `json.Marshal` accepts it; a
byte slice is carried verbatim; `StopCommand{Stop: true}` is sent as exactly
`{"stop":true}`. -/
theorem SendControl_payload_of_frame (rl : Relay σ) (w : World σ) :
    (∀ payload data, (∀ d, payload ≠ .bytes d) → Marshal payload = .ok data →
      ∃ fr, (SendControl rl w payload).1.log = w.log ++ [Event.send fr] ∧
        fr.Payload = data) ∧
    (∀ d, ∃ fr, (SendControl rl w (.bytes d)).1.log = w.log ++ [Event.send fr] ∧
      fr.Payload = d) ∧
    (∃ fr, (SendControl rl w (.stop ⟨true⟩)).1.log = w.log ++ [Event.send fr] ∧
      fr.Payload = [123, 34, 115, 116, 111, 112, 34, 58, 116, 114, 117, 101, 125]) := by
  refine ⟨?_, ?_, ?_⟩
  · intro payload data hnb hm
    have henc : encode payload = .ok data := by rw [encode_eq_Marshal hnb]; exact hm
    exact ⟨_, SendControl_log_ok rl w henc, controlFrameFrom_payload _ _⟩
  · intro d
    exact ⟨_, SendControl_log_ok rl w (rfl : encode (.bytes d) = .ok d),
      controlFrameFrom_payload _ _⟩
  · exact ⟨_, SendControl_log_ok rl w (rfl : encode (.stop ⟨true⟩) = .ok _),
      controlFrameFrom_payload _ _⟩

/-- C9: `SendControl` calls `Send` at most once; it returns nil exactly when the
payload was encodable (a byte slice, or a value `json.Marshal` accepts) and that
single `Send` returned nil; when JSON encoding fails it returns an
"invalid payload" error and `Send` is not called. -/
theorem SendControl_sends_at_most_once (rl : Relay σ) (w : World σ) (payload : Payload) :
    (∃ sent : List Frame, sent.length ≤ 1 ∧
      (SendControl rl w payload).1.log = w.log ++ sent.map Event.send) ∧
    ((SendControl rl w payload).2 = none ↔
      ((∃ d, payload = .bytes d) ∨ ∃ d, Marshal payload = .ok d) ∧
      ∃ fr, (SendControl rl w payload).1.log = w.log ++ [Event.send fr] ∧
        (rl.Send w.conn fr).2 = none) ∧
    (∀ msg, Marshal payload = .error msg →
      (SendControl rl w payload).2 =
          some (.E "send_control" (.Str ("invalid payload: " ++ msg))) ∧
        (SendControl rl w payload).1.log = w.log) := by
  cases he : encode payload with
  | error msg =>
    have hlog := SendControl_log_error rl w he
    have hres : (SendControl rl w payload).2 =
        some (.E "send_control" (.Str ("invalid payload: " ++ msg))) := by
      rw [SendControl_of_encode_error rl w he]
    refine ⟨⟨[], by simp, by simpa using hlog⟩, ?_, ?_⟩
    · constructor
      · intro h
        rw [hres] at h
        exact absurd h (by simp)
      · rintro ⟨-, fr, hfr, -⟩
        rw [hlog] at hfr
        have := congrArg List.length hfr
        simp at this
    · intro msg2 hm
      have h2 := encode_error_iff.mpr hm
      rw [he] at h2
      cases h2
      exact ⟨hres, hlog⟩
  | ok data =>
    have hlog := SendControl_log_ok rl w he
    have hres := SendControl_err_ok rl w he
    refine ⟨⟨[controlFrameFrom (getFrame w).1 data], by simp, by simpa using hlog⟩, ?_, ?_⟩
    · constructor
      · intro h
        rw [hres] at h
        refine ⟨?_, _, hlog, by simpa using h⟩
        cases payload with
        | bytes d => exact Or.inl ⟨d, rfl⟩
        | stop c => exact Or.inr ⟨data, he⟩
        | pid c => exact Or.inr ⟨data, he⟩
        | other enc => exact Or.inr ⟨data, he⟩
      · rintro ⟨-, fr, hfr, hnone⟩
        rw [hlog] at hfr
        have hfr2 : controlFrameFrom (getFrame w).1 data = fr := by
          simpa using hfr
        rw [hres, hfr2, hnone]
        rfl
    · intro msg hm
      have h2 := encode_error_iff.mpr hm
      rw [he] at h2
      cases h2

/-! ## The handshake -/

/-- C1: when the handshake request went out without error, `Pid` returns pid 0
and a non-nil error whenever the reply frame fails CRC verification, or lacks the
CONTROL flag, or decodes to a pid that is at most 0 (a JSON object without a pid
field leaves the zero-valued struct untouched and so decodes to pid 0). -/
theorem Pid_rejects_bad_reply (rl : Relay σ)
    (Unmarshal : List Nat → pidCommand → Except Error pidCommand) (Getpid : Int)
    (w : World σ) (hsend : (SendControl rl w (.pid ⟨Getpid⟩)).2 = none)
    (hbad : (handshakeReply rl Getpid w).1.VerifyCRC = false ∨
      (handshakeReply rl Getpid w).1.ReadFlags &&& CONTROL = 0 ∨
      ∃ link, Unmarshal (handshakeReply rl Getpid w).1.Payload ⟨0⟩ = .ok link ∧
        link.Pid ≤ 0) :
    (Pid rl Unmarshal Getpid w).2.1 = 0 ∧ (Pid rl Unmarshal Getpid w).2.2 ≠ none := by
  simp only [handshakeReply] at hbad
  simp only [Pid, hsend]
  rcases hbad with hcrc | hflags | ⟨link, hdec, hle⟩
  · simp [hcrc]
  · repeat' split
    all_goals simp_all
  · repeat' split
    all_goals simp_all

/-- C2: for every N > 0, if the handshake request is sent without error, `Receive`
returns no error, and the reply frame has a valid CRC, the CONTROL flag and a
payload that decodes to pid N, then `Pid` returns (N, nil); conversely, whenever
`Pid` returns a nil error its result is strictly positive and is the pid decoded
from the reply payload. -/
theorem Pid_returns_decoded_pid (rl : Relay σ)
    (Unmarshal : List Nat → pidCommand → Except Error pidCommand) (Getpid : Int)
    (w : World σ) :
    (∀ N : Int, 0 < N →
      (SendControl rl w (.pid ⟨Getpid⟩)).2 = none →
      (handshakeReply rl Getpid w).2 = none →
      (handshakeReply rl Getpid w).1.VerifyCRC = true →
      (handshakeReply rl Getpid w).1.ReadFlags &&& CONTROL ≠ 0 →
      Unmarshal (handshakeReply rl Getpid w).1.Payload ⟨0⟩ = .ok ⟨N⟩ →
      (Pid rl Unmarshal Getpid w).2 = (N, none)) ∧
    ((Pid rl Unmarshal Getpid w).2.2 = none →
      0 < (Pid rl Unmarshal Getpid w).2.1 ∧
      Unmarshal (handshakeReply rl Getpid w).1.Payload ⟨0⟩ =
        .ok ⟨(Pid rl Unmarshal Getpid w).2.1⟩) := by
  constructor
  · intro N hN hsend hrecv hcrc hflags hdec
    simp only [handshakeReply] at hrecv hcrc hflags hdec
    simp only [Pid, hsend, hrecv, hcrc, hdec]
    have hN2 : ¬ N ≤ 0 := by omega
    simp [hflags, hN2]
  · simp only [handshakeReply, Pid]
    repeat' split
    all_goals simp_all

/-- C3: `Pid` first sends exactly one frame, which has the CONTROL flag and the
payload `{"pid":H}` for the host pid H, and only afterwards calls `Receive`; if
sending that frame fails, `Pid` returns (0, error) and `Receive` is never called. -/
theorem Pid_sends_handshake_first (rl : Relay σ)
    (Unmarshal : List Nat → pidCommand → Except Error pidCommand) (Getpid : Int)
    (w : World σ) :
    ∃ fr : Frame,
      fr.ReadFlags &&& CONTROL = CONTROL ∧
      fr.Payload = [123, 34, 112, 105, 100, 34, 58] ++ intDecimal Getpid ++ [125] ∧
      ((rl.Send w.conn fr).2 = none →
        (Pid rl Unmarshal Getpid w).1.log = w.log ++ [Event.send fr, Event.receive]) ∧
      (∀ e, (rl.Send w.conn fr).2 = some e →
        (Pid rl Unmarshal Getpid w).1.log = w.log ++ [Event.send fr] ∧
        (Pid rl Unmarshal Getpid w).2 =
          (0, some (.E "fetch_pid" (.E "send_control" e)))) := by
  refine ⟨controlFrameFrom (getFrame w).1
    ([123, 34, 112, 105, 100, 34, 58] ++ intDecimal Getpid ++ [125]),
    controlFrameFrom_CONTROL _ _, controlFrameFrom_payload _ _, ?_, ?_⟩
  · intro h
    have hs : (SendControl rl w (.pid ⟨Getpid⟩)).2 = none := by
      rw [SendControl_err_ok rl w (encode_pid Getpid), h]; rfl
    rw [Pid_log_of_send_ok rl Unmarshal Getpid w hs,
      SendControl_log_ok rl w (encode_pid Getpid)]
    simp
  · intro e h
    have hs : (SendControl rl w (.pid ⟨Getpid⟩)).2 = some (.E "send_control" e) := by
      rw [SendControl_err_ok rl w (encode_pid Getpid), h]; rfl
    rw [Pid_of_send_error rl Unmarshal Getpid w hs]
    exact ⟨SendControl_log_ok rl w (encode_pid Getpid), rfl⟩

/-- C8: once the request is out, a non-nil error from `Receive` always makes `Pid`
return (0, error): the error is "CRC mismatch" when the frame's CRC does not
verify, and the wrapped receive error when it does. -/
theorem Pid_reports_receive_error (rl : Relay σ)
    (Unmarshal : List Nat → pidCommand → Except Error pidCommand) (Getpid : Int)
    (w : World σ) (e : Error) (hsend : (SendControl rl w (.pid ⟨Getpid⟩)).2 = none)
    (hrecv : (handshakeReply rl Getpid w).2 = some e) :
    (Pid rl Unmarshal Getpid w).2 =
      (0, some (if (handshakeReply rl Getpid w).1.VerifyCRC then Error.E "fetch_pid" e
        else Error.E "fetch_pid" (.Str "CRC mismatch"))) := by
  simp only [handshakeReply] at hrecv
  simp only [handshakeReply, Pid, hsend, hrecv]
  split <;> simp_all


/-! ## The frame pool -/

/-- C10: `putFrame` resets the frame it returns to the pool, so after any
sequence of `SendControl` and `Pid` calls every pooled frame is in the freshly
constructed state, the frame `SendControl` takes and the frame `Pid` takes for
the reply are fresh, and the frame that is sent is a function of the current
payload alone. -/
theorem pool_frames_are_fresh (rl : Relay σ)
    (Unmarshal : List Nat → pidCommand → Except Error pidCommand) (Getpid : Int)
    (conn : σ) (calls : List Call) :
    (∀ (w : World σ) (f : Frame), (putFrame w f).fPool = NewFrame :: w.fPool) ∧
    PoolFresh (run rl Unmarshal Getpid (World.init conn) calls) ∧
    (getFrame (run rl Unmarshal Getpid (World.init conn) calls)).1 = NewFrame ∧
    (getFrame (SendControl rl (run rl Unmarshal Getpid (World.init conn) calls)
      (.pid ⟨Getpid⟩)).1).1 = NewFrame ∧
    (∀ payload data, encode payload = .ok data →
      (SendControl rl (run rl Unmarshal Getpid (World.init conn) calls) payload).1.log =
        (run rl Unmarshal Getpid (World.init conn) calls).log ++
          [Event.send (controlFrame data)]) ∧
    (∃ rest, (Pid rl Unmarshal Getpid
        (run rl Unmarshal Getpid (World.init conn) calls)).1.log =
      (run rl Unmarshal Getpid (World.init conn) calls).log ++
        Event.send (controlFrame
          ([123, 34, 112, 105, 100, 34, 58] ++ intDecimal Getpid ++ [125])) :: rest) := by
  have hrun := run_PoolFresh rl Unmarshal Getpid calls (init_PoolFresh conn)
  have hfresh := getFrame_fresh hrun
  have hsent : ∀ payload data, encode payload = .ok data →
      (SendControl rl (run rl Unmarshal Getpid (World.init conn) calls) payload).1.log =
        (run rl Unmarshal Getpid (World.init conn) calls).log ++
          [Event.send (controlFrame data)] := by
    intro payload data henc
    rw [SendControl_log_ok rl _ henc, hfresh]; rfl
  refine ⟨fun _ _ => rfl, hrun, hfresh,
    getFrame_fresh (SendControl_PoolFresh rl _ hrun), hsent, ?_⟩
  cases hs : (SendControl rl (run rl Unmarshal Getpid (World.init conn) calls)
      (.pid ⟨Getpid⟩)).2 with
  | some e =>
    refine ⟨[], ?_⟩
    rw [Pid_of_send_error rl Unmarshal Getpid _ hs]
    exact hsent _ _ (encode_pid Getpid)
  | none =>
    refine ⟨[Event.receive], ?_⟩
    rw [Pid_log_of_send_ok rl Unmarshal Getpid _ hs, hsent _ _ (encode_pid Getpid)]
    simp

/-! ## Instances at concrete inputs -/

/-- C1 at a reply `{}` with valid CRC and CONTROL flag: the pid stays 0 and `Pid`
fails. -/
theorem Pid_rejects_bad_reply_witness :
    decodePid [123, 125] ⟨0⟩ = .ok ⟨0⟩ ∧
      (Pid (scriptedRelay none (controlFrame [123, 125]) none) decodePid 77
        (World.init ())).2.1 = 0 ∧
      (Pid (scriptedRelay none (controlFrame [123, 125]) none) decodePid 77
        (World.init ())).2.2 ≠ none :=
  ⟨by decide,
    Pid_rejects_bad_reply (scriptedRelay none (controlFrame [123, 125]) none) decodePid 77
      (World.init ()) rfl (Or.inr (Or.inr ⟨⟨0⟩, by decide, by decide⟩))⟩

/-- C2 at a reply `{"pid":42}` with valid CRC and CONTROL flag: `Pid` returns 42. -/
theorem Pid_returns_decoded_pid_witness :
    decodePid [123, 34, 112, 105, 100, 34, 58, 52, 50, 125] ⟨0⟩ = .ok ⟨42⟩ ∧
      (Pid (scriptedRelay none (controlFrame [123, 34, 112, 105, 100, 34, 58, 52, 50, 125])
        none) decodePid 77 (World.init ())).2 = (42, none) :=
  ⟨by decide,
    (Pid_returns_decoded_pid
      (scriptedRelay none (controlFrame [123, 34, 112, 105, 100, 34, 58, 52, 50, 125]) none)
      decodePid 77 (World.init ())).1 42 (by decide) rfl rfl
      (controlFrame_VerifyCRC _)
      (by
        show (controlFrame [123, 34, 112, 105, 100, 34, 58, 52, 50, 125]).ReadFlags &&&
          CONTROL ≠ 0
        rw [controlFrame_ReadFlags]; decide)
      (by decide)⟩

/-- C3 at a relay that accepts the request. -/
theorem Pid_sends_handshake_first_witness :
    ∃ fr : Frame,
      fr.ReadFlags &&& CONTROL = CONTROL ∧
      fr.Payload = [123, 34, 112, 105, 100, 34, 58] ++ intDecimal 77 ++ [125] ∧
      (((scriptedRelay none NewFrame none).Send (World.init ()).conn fr).2 = none →
        (Pid (scriptedRelay none NewFrame none) decodePid 77 (World.init ())).1.log =
          (World.init ()).log ++ [Event.send fr, Event.receive]) ∧
      (∀ e, ((scriptedRelay none NewFrame none).Send (World.init ()).conn fr).2 = some e →
        (Pid (scriptedRelay none NewFrame none) decodePid 77 (World.init ())).1.log =
          (World.init ()).log ++ [Event.send fr] ∧
        (Pid (scriptedRelay none NewFrame none) decodePid 77 (World.init ())).2 =
          (0, some (.E "fetch_pid" (.E "send_control" e)))) :=
  Pid_sends_handshake_first (scriptedRelay none NewFrame none) decodePid 77 (World.init ())

/-- C4 for `StopCommand{Stop: true}` sent after one handshake. -/
theorem SendControl_frame_is_wellformed_witness :
    encode (.stop ⟨true⟩) =
        .ok [123, 34, 115, 116, 111, 112, 34, 58, 116, 114, 117, 101, 125] ∧
      ∃ fr : Frame,
        (SendControl (scriptedRelay none NewFrame none)
          (run (scriptedRelay none NewFrame none) decodePid 77 (World.init ()) [Call.Pid])
          (.stop ⟨true⟩)).1.log =
          (run (scriptedRelay none NewFrame none) decodePid 77 (World.init ())
            [Call.Pid]).log ++ [Event.send fr] ∧
        fr.Version = VERSION_1 ∧ fr.ReadFlags &&& CONTROL = CONTROL ∧
        fr.ReadPayloadLen =
          [123, 34, 115, 116, 111, 112, 34, 58, 116, 114, 117, 101, 125].length ∧
        fr.Payload = [123, 34, 115, 116, 111, 112, 34, 58, 116, 114, 117, 101, 125] ∧
        fr.VerifyCRC = true :=
  ⟨rfl,
    SendControl_frame_is_wellformed (scriptedRelay none NewFrame none) decodePid 77 ()
      [Call.Pid] (.stop ⟨true⟩) [123, 34, 115, 116, 111, 112, 34, 58, 116, 114, 117, 101, 125]
      rfl (by decide)⟩

/-- C6 (amended) for the handshake command `pidCommand{Pid: 5}`. -/
theorem SendControl_payload_of_frame_witness :
    Marshal (.pid ⟨5⟩) = .ok [123, 34, 112, 105, 100, 34, 58, 53, 125] ∧
      ∃ fr, (SendControl (scriptedRelay none NewFrame none) (World.init ())
          (.pid ⟨5⟩)).1.log = (World.init ()).log ++ [Event.send fr] ∧
        fr.Payload = [123, 34, 112, 105, 100, 34, 58, 53, 125] :=
  ⟨by decide,
    (SendControl_payload_of_frame (scriptedRelay none NewFrame none) (World.init ())).1
      (.pid ⟨5⟩) [123, 34, 112, 105, 100, 34, 58, 53, 125]
      (fun d h => by cases h) (by decide)⟩

/-- C8 at a relay whose `Receive` fails with "EOF" on a frame with a valid CRC. -/
theorem Pid_reports_receive_error_witness :
    (Pid (scriptedRelay none (controlFrame []) (some (.Str "EOF"))) decodePid 77
      (World.init ())).2 =
      (0, some (if (handshakeReply (scriptedRelay none (controlFrame [])
          (some (.Str "EOF"))) 77 (World.init ())).1.VerifyCRC
        then Error.E "fetch_pid" (.Str "EOF")
        else Error.E "fetch_pid" (.Str "CRC mismatch"))) :=
  Pid_reports_receive_error (scriptedRelay none (controlFrame []) (some (.Str "EOF")))
    decodePid 77 (World.init ()) (.Str "EOF") rfl rfl

/-- C9 for a value `json.Marshal` rejects: the error is returned and nothing is
logged. -/
theorem SendControl_sends_at_most_once_witness :
    (SendControl (scriptedRelay none NewFrame none) (World.init ())
        (.other (.error "json: unsupported type: chan int"))).2 =
        some (.E "send_control"
          (.Str ("invalid payload: " ++ "json: unsupported type: chan int"))) ∧
      (SendControl (scriptedRelay none NewFrame none) (World.init ())
        (.other (.error "json: unsupported type: chan int"))).1.log = (World.init ()).log :=
  (SendControl_sends_at_most_once (scriptedRelay none NewFrame none) (World.init ())
    (.other (.error "json: unsupported type: chan int"))).2.2
    "json: unsupported type: chan int" rfl

/-- C10 for a byte payload sent after a handshake and a stop command. -/
theorem pool_frames_are_fresh_witness :
    (SendControl (scriptedRelay none NewFrame none)
      (run (scriptedRelay none NewFrame none) decodePid 77 (World.init ())
        [Call.Pid, Call.SendControl (.stop ⟨true⟩)]) (.bytes [1, 2, 3])).1.log =
      (run (scriptedRelay none NewFrame none) decodePid 77 (World.init ())
        [Call.Pid, Call.SendControl (.stop ⟨true⟩)]).log ++
        [Event.send (controlFrame [1, 2, 3])] :=
  (pool_frames_are_fresh (scriptedRelay none NewFrame none) decodePid 77 ()
    [Call.Pid, Call.SendControl (.stop ⟨true⟩)]).2.2.2.2.1 (.bytes [1, 2, 3]) [1, 2, 3] rfl


end Roadrunner
